import Mathlib

/-!
Verification of the HojaVerde attendance backend (bulk attendance engine).

The definitions below are a shallow embedding of
`src/infrastructure/http/controllers/AttendanceController.ts`:

* wall-clock times ("HH:mm" strings in the source) become a `Time` structure
  of hour/minute naturals; the source computes time differences in
  milliseconds, which at minute precision is an exact rescaling, so the
  embedding works in minutes;
* JavaScript numbers become `ℚ` (all arithmetic in the modelled paths is
  exact decimal arithmetic on small values);
* the JavaScript `x || d` default-on-falsy idiom on numbers becomes
  `if x = 0 then d else x`;
* `Number.prototype.toFixed(2)` followed by `new Decimal` becomes rounding
  to two decimal places (`round2`); all rounded quantities in the modelled
  paths are nonnegative, where round-half-up agrees with `toFixed`;
* the Prisma store becomes an explicit list of committed rows threaded
  through the processing loop, and the zod schemas become decidable
  validation predicates on the parsed shapes.
-/

namespace HojaVerde

/-- A wall-clock time of day, the parsed form of an "HH:mm" string. -/
structure Time where
  hh : Nat
  mm : Nat
deriving DecidableEq, Repr

/-- The "HH:mm" pattern `([0-1]?[0-9]|2[0-3]):[0-5][0-9]` of the zod schema:
hours 0–23, minutes 0–59. -/
def Time.valid (t : Time) : Bool :=
  t.hh ≤ 23 && t.mm ≤ 59

/-- Minutes since midnight, as in the source's `Date` subtraction (the
source works in milliseconds; inputs have minute precision, so the
millisecond scale factor cancels). -/
def toMinutes (t : Time) : Int :=
  (t.hh : Int) * 60 + (t.mm : Int)

/-- Embedding of `calculateWorkedHours`: elapsed = exit − entry, plus 24 h
when negative (overnight), minus lunch and permission time, floored at 0. -/
def calculateWorkedHours (entryTime exitTime : Time) (lunchDuration : Int)
    (permissionHours : ℚ) : ℚ :=
  let diffMin : Int := toMinutes exitTime - toMinutes entryTime
  let adjMin : Int := if diffMin < 0 then diffMin + 24 * 60 else diffMin
  max 0 ((adjMin : ℚ) / 60 - (lunchDuration : ℚ) / 60 - permissionHours)

/-- The three overtime buckets returned by `calculateExtraHours`. -/
structure ExtraSplit where
  nightHours : ℚ
  supplementaryHours : ℚ
  extraordinaryHours : ℚ
deriving DecidableEq, Repr

/-- Embedding of `calculateExtraHours`.  `defaultWorkingHours || 8` in the
source replaces the falsy number 0 by 8. -/
def calculateExtraHours (workedHours defaultWorkingHours : ℚ) : ExtraSplit :=
  let baseHours : ℚ := if defaultWorkingHours = 0 then 8 else defaultWorkingHours
  if workedHours ≤ baseHours then
    { nightHours := 0, supplementaryHours := 0, extraordinaryHours := 0 }
  else
    let extraHours := workedHours - baseHours
    if extraHours ≤ 2 then
      { nightHours := 0, supplementaryHours := extraHours, extraordinaryHours := 0 }
    else
      { nightHours := 0, supplementaryHours := 2, extraordinaryHours := extraHours - 2 }

/-- Round to two decimal places, the model of `new Decimal(x.toFixed(2))`
(round-half-up, which agrees with `toFixed` on the nonnegative values that
occur in the modelled paths). -/
def round2 (q : ℚ) : ℚ :=
  (round (q * 100) : ℤ) / 100

/-- The JavaScript `x || d` default on an integer field (0 is falsy). -/
def jsOrInt (x d : Int) : Int :=
  if x = 0 then d else x

/-- The JavaScript `x || d` default on a numeric field (0 is falsy). -/
def jsOrRat (x d : ℚ) : ℚ :=
  if x = 0 then d else x

/-- An area row as used by `bulkCreate` (only the fields the engine
selects: id, name, defaultWorkingHours). -/
structure Area where
  id : Nat
  name : String
  defaultWorkingHours : Int
deriving DecidableEq, Repr

/-- An employee row as used by `bulkCreate` (with its included area; the
relation is optional in the source, hence `Option Area`). -/
structure Employee where
  id : Nat
  identification : String
  firstName : String
  lastName : String
  isActive : Bool
  area : Option Area
deriving DecidableEq, Repr

/-- The parsed shape of `foodAllowanceSchema` (all defaults applied). -/
structure FoodAllowanceInput where
  breakfast : Int
  reinforcedBreakfast : Int
  snack1 : Int
  afternoonSnack : Int
  dryMeal : Int
  lunch : Int
  transport : ℚ
deriving DecidableEq, Repr

/-- The parsed shape of `attendanceRecordSchema` (defaults applied:
lunchDuration 30, isVacation false, permissionHours 0, foodAllowance all
zero when absent).  Employee ids are modelled as plain naturals; the
uuid-format check of the schema is not modelled. -/
structure AttendanceRecordInput where
  employeeId : Nat
  entryTime : Option Time
  exitTime : Option Time
  lunchDuration : Int
  isVacation : Bool
  permissionHours : ℚ
  permissionReason : Option String
  foodAllowance : FoodAllowanceInput
deriving DecidableEq, Repr

/-- Range checks of `foodAllowanceSchema`: meal counters in [0,5],
transport in [0,50]. -/
def validFood (f : FoodAllowanceInput) : Bool :=
  0 ≤ f.breakfast && f.breakfast ≤ 5 &&
  (0 ≤ f.reinforcedBreakfast && f.reinforcedBreakfast ≤ 5) &&
  (0 ≤ f.snack1 && f.snack1 ≤ 5) &&
  (0 ≤ f.afternoonSnack && f.afternoonSnack ≤ 5) &&
  (0 ≤ f.dryMeal && f.dryMeal ≤ 5) &&
  (0 ≤ f.lunch && f.lunch ≤ 5) &&
  (0 ≤ f.transport && f.transport ≤ 50)

/-- Per-record checks of `attendanceRecordSchema`: time fields match the
"HH:mm" pattern when present, lunchDuration in [0,180], permissionHours in
[0,12], permissionReason at most 500 characters, food-allowance ranges.
The schema has no cross-field check relating entryTime and exitTime. -/
def validRecord (r : AttendanceRecordInput) : Bool :=
  (match r.entryTime with | none => true | some t => t.valid) &&
  (match r.exitTime with | none => true | some t => t.valid) &&
  (0 ≤ r.lunchDuration && r.lunchDuration ≤ 180) &&
  (0 ≤ r.permissionHours && r.permissionHours ≤ 12) &&
  (match r.permissionReason with | none => true | some s => s.length ≤ 500) &&
  validFood r.foodAllowance

/-- One decimal digit. -/
def isDigit (c : Char) : Bool :=
  decide ('0' ≤ c) && decide (c ≤ '9')

/-- The `\d{4}-\d{2}-\d{2}` date pattern of `bulkAttendanceSchema`. -/
def validDate (s : String) : Bool :=
  match s.data with
  | [y1, y2, y3, y4, d1, m1, m2, d2, a1, a2] =>
      isDigit y1 && isDigit y2 && isDigit y3 && isDigit y4 &&
      (d1 == '-') && isDigit m1 && isDigit m2 &&
      (d2 == '-') && isDigit a1 && isDigit a2
  | _ => false

/-- Structural validation of a bulk request (`bulkAttendanceSchema`):
date pattern, 1 ≤ batch size ≤ 1000, every record well-formed. -/
def validBulk (date : String) (records : List AttendanceRecordInput) : Bool :=
  validDate date && 1 ≤ records.length && records.length ≤ 1000 &&
  records.all validRecord

/-- A persisted `AttendanceRecord` row (`tx.attendanceRecord.create`). -/
structure AttendanceRow where
  employeeId : Nat
  date : String
  entryTime : Option Time
  exitTime : Option Time
  lunchDuration : Int
  workedHours : ℚ
  isVacation : Bool
  permissionHours : ℚ
  permissionReason : Option String
deriving DecidableEq, Repr

/-- A persisted `FoodAllowance` row (`tx.foodAllowance.create`), without
the foreign key, which is implicit in the bundling below. -/
structure FoodRow where
  breakfast : Int
  reinforcedBreakfast : Int
  snack1 : Int
  afternoonSnack : Int
  dryMeal : Int
  lunch : Int
  transport : ℚ
deriving DecidableEq, Repr

/-- A persisted `ExtraHours` row (`tx.extraHours.create`). -/
structure ExtraRow where
  nightHours : ℚ
  supplementaryHours : ℚ
  extraordinaryHours : ℚ
deriving DecidableEq, Repr

/-- The three rows the engine writes for one committed record: the
attendance row, its food-allowance sub-row (always), and its overtime
sub-row (only when some bucket is positive). -/
structure CommittedRecord where
  row : AttendanceRow
  food : FoodRow
  extra : Option ExtraRow
deriving DecidableEq, Repr

/-- One entry of the per-record `errors` array of `bulkCreate`. -/
structure BulkError where
  index : Nat
  employeeId : Nat
  identification : Option String
  name : Option String
  error : String
deriving DecidableEq, Repr

/-- One entry of the `processedRecords` array of `bulkCreate`. -/
structure Summary where
  employeeId : Nat
  identification : String
  name : String
  area : Option String
  workedHours : ℚ
  status : String
deriving DecidableEq, Repr

/-- The error message for a record whose employee is not in the lookup map. -/
def msgEmployeeNotFound : String := "Empleado no encontrado"

/-- The error message for a duplicate (employeeId, date) record. -/
def msgDuplicate : String := "Ya existe registro para esta fecha"

/-- `employee.area?.defaultWorkingHours || 8`: 8 when the employee has no
area, and the falsy value 0 is also replaced by 8. -/
def areaWorkingHoursOr8 : Option Area → ℚ
  | none => 8
  | some a => jsOrRat (a.defaultWorkingHours : ℚ) 8

/-- The all-zero overtime split. -/
def zeroSplit : ExtraSplit :=
  { nightHours := 0, supplementaryHours := 0, extraordinaryHours := 0 }

/-- The `workedHours` / extra-hours computation of the loop body
(`!record.isVacation && record.entryTime && record.exitTime` guards the
computation; otherwise every quantity stays at its initial 0). -/
def computedHours (emp : Employee) (r : AttendanceRecordInput) : ℚ × ExtraSplit :=
  if r.isVacation then (0, zeroSplit)
  else
    match r.entryTime, r.exitTime with
    | some entry, some exit =>
        let w := calculateWorkedHours entry exit (jsOrInt r.lunchDuration 30)
          (jsOrRat r.permissionHours 0)
        (w, calculateExtraHours w (areaWorkingHoursOr8 emp.area))
    | _, _ => (0, zeroSplit)

/-- The three `create` calls for one record, bundled: attendance row (with
`lunchDuration || 30`, rounded hours, `permissionHours ? round : 0`), the
unconditional food row, and the extra-hours row guarded by
`nightHours > 0 || supplementaryHours > 0 || extraordinaryHours > 0`. -/
def buildCommitted (emp : Employee) (date : String) (r : AttendanceRecordInput) :
    CommittedRecord :=
  let wx := computedHours emp r
  { row :=
      { employeeId := r.employeeId
        date := date
        entryTime := r.entryTime
        exitTime := r.exitTime
        lunchDuration := jsOrInt r.lunchDuration 30
        workedHours := round2 wx.1
        isVacation := r.isVacation
        permissionHours := if r.permissionHours = 0 then 0 else round2 r.permissionHours
        permissionReason := r.permissionReason }
    food :=
      { breakfast := r.foodAllowance.breakfast
        reinforcedBreakfast := r.foodAllowance.reinforcedBreakfast
        snack1 := r.foodAllowance.snack1
        afternoonSnack := r.foodAllowance.afternoonSnack
        dryMeal := r.foodAllowance.dryMeal
        lunch := r.foodAllowance.lunch
        transport := round2 r.foodAllowance.transport }
    extra :=
      if 0 < wx.2.nightHours ∨ 0 < wx.2.supplementaryHours ∨ 0 < wx.2.extraordinaryHours then
        some
          { nightHours := round2 wx.2.nightHours
            supplementaryHours := round2 wx.2.supplementaryHours
            extraordinaryHours := round2 wx.2.extraordinaryHours }
      else none }

/-- The `processedRecords` entry for a committed record. -/
def mkSummary (emp : Employee) (r : AttendanceRecordInput) : Summary :=
  { employeeId := r.employeeId
    identification := emp.identification
    name := emp.firstName ++ " " ++ emp.lastName
    area := (emp.area).map Area.name
    workedHours := (computedHours emp r).1
    status := "created" }

/-- The duplicate-record error entry. -/
def mkDupError (i : Nat) (r : AttendanceRecordInput) (emp : Employee) : BulkError :=
  { index := i
    employeeId := r.employeeId
    identification := some emp.identification
    name := some (emp.firstName ++ " " ++ emp.lastName)
    error := msgDuplicate }

/-- The missing-employee error entry of the loop body. -/
def mkNotFoundError (i : Nat) (r : AttendanceRecordInput) : BulkError :=
  { index := i
    employeeId := r.employeeId
    identification := none
    name := none
    error := msgEmployeeNotFound }

/-- Does the store already hold a row for this (employeeId, date) pair
(`tx.attendanceRecord.findUnique` on the unique key)? -/
def hasPair (store : List CommittedRecord) (id : Nat) (date : String) : Bool :=
  store.any fun c => c.row.employeeId == id && c.row.date == date

/-- The number of rows of the store with the given (employeeId, date) key. -/
def pairCount (store : List CommittedRecord) (id : Nat) (date : String) : Nat :=
  (store.filter fun c => c.row.employeeId == id && c.row.date == date).length

/-- The transaction state of the processing loop: the store (pre-existing
rows plus rows created earlier in the transaction, both visible to
`findUnique`), the `processedRecords` array and the `errors` array. -/
structure BulkState where
  store : List CommittedRecord
  processed : List Summary
  errors : List BulkError
deriving DecidableEq, Repr

/-- The `prisma.employee.findMany` result: active employees whose id
occurs in the batch. -/
def filterEmployees (db : List Employee) (ids : List Nat) : List Employee :=
  db.filter fun e => e.isActive && ids.contains e.id

/-- Lookup in the `employeeMap` built from the `findMany` result. -/
def mapLookup (emap : List Employee) (id : Nat) : Option Employee :=
  emap.find? fun e => e.id == id

/-- The first active employee of the database with the given id (the
semantic content of a `findMany` hit for that id). -/
def lookupActive (db : List Employee) (id : Nat) : Option Employee :=
  db.find? fun e => e.isActive && e.id == id

/-- One iteration of the `for` loop of `bulkCreate`: map lookup, duplicate
check against the store, then the three `create` calls. -/
def processRecord (emap : List Employee) (date : String) (i : Nat)
    (r : AttendanceRecordInput) (st : BulkState) : BulkState :=
  match mapLookup emap r.employeeId with
  | none => { st with errors := st.errors ++ [mkNotFoundError i r] }
  | some emp =>
      if hasPair st.store r.employeeId date then
        { st with errors := st.errors ++ [mkDupError i r emp] }
      else
        { st with
            store := st.store ++ [buildCommitted emp date r]
            processed := st.processed ++ [mkSummary emp r] }

/-- The `for` loop of `bulkCreate` over the batch, carrying the index. -/
def processLoop (emap : List Employee) (date : String) :
    Nat → List AttendanceRecordInput → BulkState → BulkState
  | _, [], st => st
  | i, r :: rs, st => processLoop emap date (i + 1) rs (processRecord emap date i r st)

/-- The outcome of a bulk request: a 400 structural-validation rejection
(produced by `parse` before any store access), a batch-level 404 when the
employee pre-check fails (before the transaction), or the transaction
result. -/
inductive BulkOutcome where
  | validationError : BulkOutcome
  | employeesNotFound : List Nat → BulkOutcome
  | ok : List CommittedRecord → List Summary → List BulkError → BulkOutcome
deriving DecidableEq, Repr

/-- Embedding of `AttendanceController.bulkCreate`: zod parse, bulk
employee lookup, the all-ids-resolve pre-check
(`employees.length !== employeeIds.length` aborts the whole request with
the filtered list of missing ids), then the per-record transaction loop. -/
def bulkCreate (db : List Employee) (store0 : List CommittedRecord)
    (date : String) (records : List AttendanceRecordInput) : BulkOutcome :=
  if validBulk date records then
    let employeeIds := records.map AttendanceRecordInput.employeeId
    let employees := filterEmployees db employeeIds
    if employees.length ≠ employeeIds.length then
      .employeesNotFound
        (employeeIds.filter fun id => !(employees.map Employee.id).contains id)
    else
      let fin := processLoop employees date 0 records
        { store := store0, processed := [], errors := [] }
      .ok fin.store fin.processed fin.errors
  else .validationError

/-- The number of records a bulk outcome committed (zero for the two
request-level aborts, which commit nothing). -/
def committedCount : BulkOutcome → Nat
  | .ok _ processed _ => processed.length
  | _ => 0

/-- The elapsed-hours formula as the specification words it: exit − entry
in hours when exit is not before entry, and exit − entry + 24 hours
otherwise (overnight wraparound).  Stated over minutes-since-midnight for
comparison with `calculateWorkedHours`. -/
def elapsedHoursSpec (entry exit : Time) : ℚ :=
  if toMinutes exit < toMinutes entry then
    ((toMinutes exit : ℚ) - (toMinutes entry : ℚ)) / 60 + 24
  else
    ((toMinutes exit : ℚ) - (toMinutes entry : ℚ)) / 60

/-- An all-zero food allowance. -/
def foodZero : FoodAllowanceInput := ⟨0, 0, 0, 0, 0, 0, 0⟩

/-- A record whose entry time 10:00 is after its exit time 09:00, every
field of which is inside the schema ranges. -/
def recBackwards : AttendanceRecordInput :=
  { employeeId := 0, entryTime := some ⟨10, 0⟩, exitTime := some ⟨9, 0⟩,
    lunchDuration := 30, isVacation := false, permissionHours := 0,
    permissionReason := none, foodAllowance := foodZero }

/-- The submission date used by the concrete batches below. -/
def dateJan : String := "2025-01-15"

/-- A well-formed attendance record for employee 0 (06:30–16:00). -/
def recAna : AttendanceRecordInput :=
  { employeeId := 0, entryTime := some ⟨6, 30⟩, exitTime := some ⟨16, 0⟩,
    lunchDuration := 30, isVacation := false, permissionHours := 0,
    permissionReason := none, foodAllowance := foodZero }

/-- An active employee with id 0 and no area. -/
def empAna : Employee :=
  { id := 0, identification := "0102030405", firstName := "Ana",
    lastName := "Soto", isActive := true, area := none }

/-- The same 06:30–16:00 record, submitted for the unknown employee id 1. -/
def recBob : AttendanceRecordInput :=
  { recAna with employeeId := 1 }

/-- A second active employee with id 1 and no area. -/
def empBeto : Employee :=
  { id := 1, identification := "0607080910", firstName := "Beto",
    lastName := "Mora", isActive := true, area := none }

/-- A previously committed attendance row for employee 0 on the batch
date (a vacation day recorded by an earlier submission). -/
def rowAnaPrev : AttendanceRow :=
  { employeeId := 0, date := dateJan, entryTime := none, exitTime := none,
    lunchDuration := 30, workedHours := 0, isVacation := true,
    permissionHours := 0, permissionReason := none }

/-- A store holding exactly the previous record of employee 0. -/
def storeAna : List CommittedRecord :=
  [{ row := rowAnaPrev, food := ⟨0, 0, 0, 0, 0, 0, 0⟩, extra := none }]

/-- C2: for every entry/exit pair of valid "HH:mm" times with
lunchMinutes ≥ 0 and permissionHours ≥ 0, `calculateWorkedHours` returns
max(0, elapsedHours − lunchMinutes/60 − permissionHours), where
elapsedHours is exit − entry with 24 hours added on overnight wraparound;
the result is never negative. -/
theorem c2_worked_hours_formula (entry exit : Time) (lunch : Int) (perm : ℚ)
    (hen : entry.valid = true) (hex : exit.valid = true)
    (hl : 0 ≤ lunch) (hp : 0 ≤ perm) :
    calculateWorkedHours entry exit lunch perm =
      max 0 (elapsedHoursSpec entry exit - (lunch : ℚ) / 60 - perm) ∧
    0 ≤ calculateWorkedHours entry exit lunch perm := by
  constructor
  · simp only [calculateWorkedHours, elapsedHoursSpec]
    split_ifs with h1 h2 h2
    · congr 1
      push_cast
      ring
    · omega
    · omega
    · congr 1
      push_cast
      ring
  · simp only [calculateWorkedHours]
    exact le_max_left 0 _

/-- Witness for C2 at entry 06:30, exit 16:00, lunch 30, permission 0. -/
theorem c2_worked_hours_formula_witness :
    calculateWorkedHours ⟨6, 30⟩ ⟨16, 0⟩ 30 0 =
      max 0 (elapsedHoursSpec ⟨6, 30⟩ ⟨16, 0⟩ - (30 : ℚ) / 60 - 0) ∧
    0 ≤ calculateWorkedHours ⟨6, 30⟩ ⟨16, 0⟩ 30 0 :=
  c2_worked_hours_formula ⟨6, 30⟩ ⟨16, 0⟩ 30 0 (by decide) (by decide)
    (by decide) (by norm_num)

/-- C3 counterexample: at workedHours = 11 and standardDailyHours = 0 the
claimed split (supplementary = 2, extraordinary = extra − 2 = 9) is not
what `calculateExtraHours` returns, because the source replaces the falsy
standard 0 by 8 and returns extraordinary = 1. -/
theorem c3_counterexample :
    calculateExtraHours 11 0 ≠
      { nightHours := 0, supplementaryHours := 2, extraordinaryHours := 11 - 0 - 2 } := by
  have h : calculateExtraHours 11 0 =
      { nightHours := 0, supplementaryHours := 2, extraordinaryHours := 1 } := by
    with_unfolding_all rfl
  rw [h]
  intro hEq
  have h9 := congrArg ExtraSplit.extraordinaryHours hEq
  norm_num at h9

/-- C3 (amended): for every workedHours and every standardDailyHours ≠ 0,
`calculateExtraHours` returns all three buckets 0 when
workedHours ≤ standardDailyHours; otherwise with
extra = workedHours − standardDailyHours it returns supplementary = extra,
extraordinary = 0 when extra ≤ 2 and supplementary = 2,
extraordinary = extra − 2 when extra > 2; night is 0 in every case.  (At
standardDailyHours = 0 the source substitutes 8 for the falsy value.) -/
theorem c3_overtime_split (w s : ℚ) (hs : s ≠ 0) :
    (w ≤ s → calculateExtraHours w s = zeroSplit) ∧
    (s < w → w - s ≤ 2 →
      calculateExtraHours w s =
        { nightHours := 0, supplementaryHours := w - s, extraordinaryHours := 0 }) ∧
    (s < w → 2 < w - s →
      calculateExtraHours w s =
        { nightHours := 0, supplementaryHours := 2, extraordinaryHours := w - s - 2 }) ∧
    (calculateExtraHours w s).nightHours = 0 := by
  simp only [calculateExtraHours, if_neg hs, zeroSplit]
  refine ⟨fun h1 => ?_, fun h1 h2 => ?_, fun h1 h2 => ?_, ?_⟩
  · rw [if_pos h1]
  · rw [if_neg (not_le.mpr h1), if_pos h2]
  · rw [if_neg (not_le.mpr h1), if_neg (not_le.mpr h2)]
  · split_ifs <;> rfl

/-- Rounding fixes 0. -/
theorem round2_zero : round2 0 = 0 := by
  norm_num [round2]

/-- C4: a record committed with isVacation = true is persisted with
workedHours = 0 (whether or not entry/exit times are present) and no
ExtraHours sub-record is created for it.  `buildCommitted` is the only
way the engine commits a record. -/
theorem c4_vacation_record (emp : Employee) (date : String)
    (r : AttendanceRecordInput) (hv : r.isVacation = true) :
    (buildCommitted emp date r).row.workedHours = 0 ∧
    (buildCommitted emp date r).extra = none := by
  have hc : computedHours emp r = (0, zeroSplit) := by
    simp [computedHours, hv]
  simp [buildCommitted, hc, round2_zero, zeroSplit]

/-- Witness for C4: a vacation record carrying entry and exit times. -/
theorem c4_vacation_record_witness :
    (buildCommitted
        { id := 0, identification := "001", firstName := "Ana", lastName := "Soto",
          isActive := true, area := none }
        "2025-01-15"
        { employeeId := 0, entryTime := some ⟨6, 30⟩, exitTime := some ⟨16, 0⟩,
          lunchDuration := 30, isVacation := true, permissionHours := 0,
          permissionReason := none,
          foodAllowance := ⟨0, 0, 0, 0, 0, 0, 0⟩ }).row.workedHours = 0 ∧
    (buildCommitted
        { id := 0, identification := "001", firstName := "Ana", lastName := "Soto",
          isActive := true, area := none }
        "2025-01-15"
        { employeeId := 0, entryTime := some ⟨6, 30⟩, exitTime := some ⟨16, 0⟩,
          lunchDuration := 30, isVacation := true, permissionHours := 0,
          permissionReason := none,
          foodAllowance := ⟨0, 0, 0, 0, 0, 0, 0⟩ }).extra = none :=
  c4_vacation_record _ _ _ rfl

/-- C8: for a record whose employee's area is absent, the overtime
classifier is invoked with 8 as the standard day length. -/
theorem c8_default_standard_eight (emp : Employee) (r : AttendanceRecordInput)
    (entry exit : Time) (ha : emp.area = none) (hv : r.isVacation = false)
    (he : r.entryTime = some entry) (hx : r.exitTime = some exit) :
    (computedHours emp r).2 =
      calculateExtraHours
        (calculateWorkedHours entry exit (jsOrInt r.lunchDuration 30)
          (jsOrRat r.permissionHours 0)) 8 := by
  simp [computedHours, hv, he, hx, areaWorkingHoursOr8, ha]

/-- Witness for C8: a 06:30–18:00 day for an employee without an area. -/
theorem c8_default_standard_eight_witness :
    (computedHours
        { id := 0, identification := "001", firstName := "Ana", lastName := "Soto",
          isActive := true, area := none }
        { employeeId := 0, entryTime := some ⟨6, 30⟩, exitTime := some ⟨18, 0⟩,
          lunchDuration := 30, isVacation := false, permissionHours := 0,
          permissionReason := none,
          foodAllowance := ⟨0, 0, 0, 0, 0, 0, 0⟩ }).2 =
      calculateExtraHours (calculateWorkedHours ⟨6, 30⟩ ⟨18, 0⟩ (jsOrInt 30 30)
        (jsOrRat 0 0)) 8 :=
  c8_default_standard_eight _ _ ⟨6, 30⟩ ⟨18, 0⟩ rfl rfl rfl rfl

/-- C9: every committed record carries exactly one FoodAllowance sub-row,
built unconditionally from the submitted counters (even when all-zero),
and an ExtraHours sub-row exists if and only if at least one of the three
computed overtime buckets is positive. -/
theorem c9_subrecords (emp : Employee) (date : String) (r : AttendanceRecordInput) :
    (buildCommitted emp date r).food =
      { breakfast := r.foodAllowance.breakfast
        reinforcedBreakfast := r.foodAllowance.reinforcedBreakfast
        snack1 := r.foodAllowance.snack1
        afternoonSnack := r.foodAllowance.afternoonSnack
        dryMeal := r.foodAllowance.dryMeal
        lunch := r.foodAllowance.lunch
        transport := round2 r.foodAllowance.transport } ∧
    ((buildCommitted emp date r).extra.isSome = true ↔
      (0 < (computedHours emp r).2.nightHours ∨
        0 < (computedHours emp r).2.supplementaryHours ∨
        0 < (computedHours emp r).2.extraordinaryHours)) := by
  constructor
  · rfl
  · simp only [buildCommitted]
    split_ifs with h
    · simpa using h
    · simpa using h

/-- C10: a record submitted with lunchDuration = 0 is committed exactly as
if lunchDuration were 30 (the engine replaces the falsy 0 by the default
30 both in the computation and in the persisted row). -/
theorem c10_lunch_zero_is_thirty (emp : Employee) (date : String)
    (r : AttendanceRecordInput) (h0 : r.lunchDuration = 0) :
    buildCommitted emp date r = buildCommitted emp date { r with lunchDuration := 30 } ∧
    (buildCommitted emp date r).row.lunchDuration = 30 := by
  have hj : jsOrInt r.lunchDuration 30 = 30 := by simp [jsOrInt, h0]
  have hj2 : jsOrInt (30 : Int) 30 = 30 := by norm_num [jsOrInt]
  have hch : computedHours emp r = computedHours emp { r with lunchDuration := 30 } := by
    simp [computedHours, hj, hj2]
  constructor
  · simp [buildCommitted, hch, hj, hj2]
  · simp [buildCommitted, hj]

/-- Witness for C10: an 06:30–16:00 day submitted with lunchDuration 0. -/
theorem c10_lunch_zero_is_thirty_witness :
    buildCommitted
        { id := 0, identification := "001", firstName := "Ana", lastName := "Soto",
          isActive := true, area := none }
        "2025-01-15"
        { employeeId := 0, entryTime := some ⟨6, 30⟩, exitTime := some ⟨16, 0⟩,
          lunchDuration := 0, isVacation := false, permissionHours := 0,
          permissionReason := none, foodAllowance := ⟨0, 0, 0, 0, 0, 0, 0⟩ } =
      buildCommitted
        { id := 0, identification := "001", firstName := "Ana", lastName := "Soto",
          isActive := true, area := none }
        "2025-01-15"
        { employeeId := 0, entryTime := some ⟨6, 30⟩, exitTime := some ⟨16, 0⟩,
          lunchDuration := 30, isVacation := false, permissionHours := 0,
          permissionReason := none, foodAllowance := ⟨0, 0, 0, 0, 0, 0, 0⟩ } ∧
    (buildCommitted
        { id := 0, identification := "001", firstName := "Ana", lastName := "Soto",
          isActive := true, area := none }
        "2025-01-15"
        { employeeId := 0, entryTime := some ⟨6, 30⟩, exitTime := some ⟨16, 0⟩,
          lunchDuration := 0, isVacation := false, permissionHours := 0,
          permissionReason := none,
          foodAllowance := ⟨0, 0, 0, 0, 0, 0, 0⟩ }).row.lunchDuration = 30 :=
  c10_lunch_zero_is_thirty _ _ _ rfl

/-- C6 counterexample: a non-vacation record with entryTime 10:00 after
exitTime 09:00 passes the batch validator (the schema has no ordering
check), instead of being rejected as the claim states; the engine then
computes 22.5 worked hours by overnight wraparound. -/
theorem c6_counterexample :
    validRecord recBackwards = true ∧ recBackwards.isVacation = false ∧
    calculateWorkedHours ⟨10, 0⟩ ⟨9, 0⟩ 30 0 = 45 / 2 := by
  refine ⟨by decide, rfl, by with_unfolding_all rfl⟩

/-- C6 (amended): the batch validator applies no ordering check between
entryTime and exitTime — a record's validity is unchanged when its two
times are exchanged, so a non-vacation record with entryTime ≥ exitTime is
accepted whenever its fields are in range — and `calculateWorkedHours`
treats exitTime < entryTime as an overnight wraparound, adding 24 hours,
rather than rejecting it. -/
theorem c6_no_ordering_check (r : AttendanceRecordInput) (entry exit : Time)
    (he : r.entryTime = some entry) (hx : r.exitTime = some exit)
    (hord : toMinutes exit < toMinutes entry) :
    validRecord r = validRecord { r with entryTime := some exit, exitTime := some entry } ∧
    (∀ (lunch : Int) (perm : ℚ),
      calculateWorkedHours entry exit lunch perm =
        max 0 (((toMinutes exit - toMinutes entry + 1440 : Int) : ℚ) / 60 -
          (lunch : ℚ) / 60 - perm)) := by
  constructor
  · simp only [validRecord, he, hx]
    cases hev : entry.valid <;> cases hxv : exit.valid <;> simp
  · intro lunch perm
    simp only [calculateWorkedHours]
    rw [if_pos (by omega)]
    norm_num

/-- Witness for C6 (amended) at the 10:00/09:00 record. -/
theorem c6_no_ordering_check_witness :
    validRecord recBackwards =
      validRecord { recBackwards with entryTime := some ⟨9, 0⟩, exitTime := some ⟨10, 0⟩ } ∧
    (∀ (lunch : Int) (perm : ℚ),
      calculateWorkedHours ⟨10, 0⟩ ⟨9, 0⟩ lunch perm =
        max 0 (((toMinutes ⟨9, 0⟩ - toMinutes ⟨10, 0⟩ + 1440 : Int) : ℚ) / 60 -
          (lunch : ℚ) / 60 - perm)) :=
  c6_no_ordering_check recBackwards ⟨10, 0⟩ ⟨9, 0⟩ rfl rfl (by decide)

/-- `List.all` holds on a replicated list when it holds on the element. -/
theorem all_replicate_of {α : Type} (n : Nat) (a : α) (p : α → Bool)
    (h : p a = true) : (List.replicate n a).all p = true := by
  induction n with
  | zero => rfl
  | succ n ih => simp [List.replicate_succ, h, ih]

/-- C7: a bulk submission of exactly 1000 records passes structural
validation, while submissions of 1001 records or 0 records are rejected
with a validation error whose production is independent of the employee
database and of the store — the request is refused before any lookup or
storage access. -/
theorem c7_batch_size_boundary :
    validBulk dateJan (List.replicate 1000 recAna) = true ∧
    (∀ (db : List Employee) (store0 : List CommittedRecord),
      bulkCreate db store0 dateJan (List.replicate 1001 recAna) =
        BulkOutcome.validationError) ∧
    (∀ (db : List Employee) (store0 : List CommittedRecord),
      bulkCreate db store0 dateJan ([] : List AttendanceRecordInput) =
        BulkOutcome.validationError) := by
  have hrec : validRecord recAna = true := by decide
  have hdate : validDate dateJan = true := by decide
  refine ⟨?_, fun db store0 => ?_, fun db store0 => ?_⟩
  · unfold validBulk
    rw [List.length_replicate, all_replicate_of _ _ _ hrec, hdate]
    decide
  · have hv : validBulk dateJan (List.replicate 1001 recAna) = false := by
      have h1001 : ¬ (1001 ≤ 1000) := by omega
      unfold validBulk
      rw [List.length_replicate, decide_eq_false h1001, Bool.and_false, Bool.false_and]
    rw [bulkCreate, if_neg (by rw [hv]; exact Bool.false_ne_true)]
  · have hv : validBulk dateJan ([] : List AttendanceRecordInput) = false := by
      simp [validBulk]
    rw [bulkCreate, if_neg (by rw [hv]; exact Bool.false_ne_true)]

/-- `hasPair` over an appended store. -/
theorem hasPair_append (s t : List CommittedRecord) (x : Nat) (d : String) :
    hasPair (s ++ t) x d = (hasPair s x d || hasPair t x d) := by
  simp [hasPair, List.any_append]

/-- `pairCount` over an appended store. -/
theorem pairCount_append (s t : List CommittedRecord) (x : Nat) (d : String) :
    pairCount (s ++ t) x d = pairCount s x d + pairCount t x d := by
  simp [pairCount, List.filter_append]

/-- `hasPair` holds exactly when `pairCount` is positive. -/
theorem hasPair_eq_true_iff (s : List CommittedRecord) (x : Nat) (d : String) :
    hasPair s x d = true ↔ 0 < pairCount s x d := by
  simp [hasPair, pairCount, List.any_eq_true, List.length_pos,
    List.filter_eq_nil_iff]

/-- A store with no row for the pair has `hasPair` false. -/
theorem hasPair_eq_false_of_count_zero (s : List CommittedRecord) (x : Nat)
    (d : String) (h : pairCount s x d = 0) : hasPair s x d = false := by
  cases hp : hasPair s x d with
  | false => rfl
  | true => rw [hasPair_eq_true_iff, h] at hp; omega

/-- `pairCount` of the single commit of a record for another employee. -/
theorem pairCount_single_ne (c : CommittedRecord) (x : Nat) (d : String)
    (h : c.row.employeeId ≠ x) : pairCount [c] x d = 0 := by
  have hb : (c.row.employeeId == x) = false := by simpa using h
  simp [pairCount, List.filter, hb]

/-- Case analysis of one loop iteration on the store: either the store is
unchanged (missing employee, or duplicate rejection), or exactly the
processed record's three rows are appended. -/
theorem processRecord_store_cases (emap : List Employee) (date : String)
    (i : Nat) (r : AttendanceRecordInput) (st : BulkState) :
    (processRecord emap date i r st).store = st.store ∨
    ∃ emp, mapLookup emap r.employeeId = some emp ∧
      hasPair st.store r.employeeId date = false ∧
      (processRecord emap date i r st).store = st.store ++ [buildCommitted emp date r] := by
  unfold processRecord
  cases hm : mapLookup emap r.employeeId with
  | none => exact Or.inl rfl
  | some emp =>
      by_cases hp : hasPair st.store r.employeeId date
      · left
        simp [hp]
      · right
        exact ⟨emp, rfl, by simpa using hp, by simp [hp]⟩

/-- The error array never shrinks across the loop. -/
theorem processLoop_errors_mono (emap : List Employee) (date : String) :
    ∀ (rs : List AttendanceRecordInput) (i : Nat) (st : BulkState) (err : BulkError),
      err ∈ st.errors → err ∈ (processLoop emap date i rs st).errors := by
  intro rs
  induction rs with
  | nil => intro i st err h; exact h
  | cons r rs ih =>
      intro i st err h
      apply ih
      unfold processRecord
      cases hm : mapLookup emap r.employeeId with
      | none => simp; exact Or.inl h
      | some emp =>
          by_cases hp : hasPair st.store r.employeeId date
          · simp [hp]
            exact Or.inl h
          · simp [hp]
            exact h

/-- The processed array never shrinks across the loop. -/
theorem processLoop_processed_mono (emap : List Employee) (date : String) :
    ∀ (rs : List AttendanceRecordInput) (i : Nat) (st : BulkState) (s : Summary),
      s ∈ st.processed → s ∈ (processLoop emap date i rs st).processed := by
  intro rs
  induction rs with
  | nil => intro i st s h; exact h
  | cons r rs ih =>
      intro i st s h
      apply ih
      unfold processRecord
      cases hm : mapLookup emap r.employeeId with
      | none => simpa using h
      | some emp =>
          by_cases hp : hasPair st.store r.employeeId date
          · simpa [hp] using h
          · simp [hp]
            exact Or.inl h

/-- Rows the loop adds to the store all stem from the remaining batch
records and carry the batch date. -/
theorem processLoop_store_delta (emap : List Employee) (date : String) :
    ∀ (rs : List AttendanceRecordInput) (i : Nat) (st : BulkState),
      ∃ ds, (processLoop emap date i rs st).store = st.store ++ ds ∧
        ∀ c ∈ ds, c.row.date = date ∧
          c.row.employeeId ∈ rs.map AttendanceRecordInput.employeeId := by
  intro rs
  induction rs with
  | nil => intro i st; exact ⟨[], by simp [processLoop], by simp⟩
  | cons r rs ih =>
      intro i st
      obtain ⟨ds, hds, hall⟩ := ih (i + 1) (processRecord emap date i r st)
      rcases processRecord_store_cases emap date i r st with hcase | ⟨emp, _, _, hcase⟩
      · refine ⟨ds, ?_, ?_⟩
        · rw [processLoop, hds, hcase]
        · intro c hc
          obtain ⟨h1, h2⟩ := hall c hc
          exact ⟨h1, List.mem_cons_of_mem _ h2⟩
      · refine ⟨buildCommitted emp date r :: ds, ?_, ?_⟩
        · rw [processLoop, hds, hcase]
          simp
        · intro c hc
          rcases List.mem_cons.mp hc with hc | hc
          · subst hc
            exact ⟨rfl, by simp [buildCommitted]⟩
          · obtain ⟨h1, h2⟩ := hall c hc
            exact ⟨h1, List.mem_cons_of_mem _ h2⟩

/-- The loop preserves a pair count of exactly one: a pair already present
in the store is never committed again. -/
theorem processLoop_pairCount_one (emap : List Employee) (date : String) :
    ∀ (rs : List AttendanceRecordInput) (i : Nat) (st : BulkState) (x : Nat),
      pairCount st.store x date = 1 →
      pairCount (processLoop emap date i rs st).store x date = 1 := by
  intro rs
  induction rs with
  | nil => intro i st x h; exact h
  | cons r rs ih =>
      intro i st x h
      apply ih
      rcases processRecord_store_cases emap date i r st with hcase | ⟨emp, _, hp, hcase⟩
      · rw [hcase]
        exact h
      · by_cases hx : r.employeeId = x
        · subst hx
          have htrue : hasPair st.store r.employeeId date = true := by
            rw [hasPair_eq_true_iff, h]
            omega
          rw [htrue] at hp
          exact Bool.noConfusion hp
        · rw [hcase, pairCount_append, pairCount_single_ne _ _ _ ?hne, h]
          case hne =>
            show (buildCommitted emp date r).row.employeeId ≠ x
            simpa [buildCommitted] using hx

/-- A batch record whose (employeeId, date) pair is already in the store
at loop entry is rejected inside the loop with the duplicate error (the
store only grows, so the pair is still present at the record's turn). -/
theorem processLoop_dup_error (emap : List Employee) (date : String) :
    ∀ (rs : List AttendanceRecordInput) (i : Nat) (st : BulkState) (j : Nat)
      (hj : j < rs.length) (e : Employee),
      mapLookup emap (rs.get ⟨j, hj⟩).employeeId = some e →
      hasPair st.store (rs.get ⟨j, hj⟩).employeeId date = true →
      mkDupError (i + j) (rs.get ⟨j, hj⟩) e ∈ (processLoop emap date i rs st).errors := by
  intro rs
  induction rs with
  | nil => intro i st j hj; simp at hj
  | cons r rs ih =>
      intro i st j hj e hm hp
      have hstep : processLoop emap date i (r :: rs) st =
          processLoop emap date (i + 1) rs (processRecord emap date i r st) := rfl
      cases j with
      | zero =>
          rw [hstep]
          apply processLoop_errors_mono
          have hm0 : mapLookup emap r.employeeId = some e := hm
          have hp0 : hasPair st.store r.employeeId date = true := hp
          simp [processRecord, hm0, hp0]
      | succ j =>
          rw [hstep]
          have harith : i + (j + 1) = (i + 1) + j := by omega
          rw [harith]
          have hget : (r :: rs).get ⟨j + 1, hj⟩ = rs.get ⟨j, by simpa using hj⟩ := rfl
          rw [hget] at hm hp ⊢
          apply ih (i + 1) (processRecord emap date i r st) j _ e hm
          rcases processRecord_store_cases emap date i r st with hcase | ⟨emp, _, _, hcase⟩
          · rw [hcase]
            exact hp
          · rw [hcase, hasPair_append, hp]
            rfl

/-- A batch record that resolves in the employee map and whose
(employeeId, date) pair is not yet in the store is committed by the loop,
provided the batch mentions each employee at most once. -/
theorem processLoop_commits (emap : List Employee) (date : String) :
    ∀ (rs : List AttendanceRecordInput) (i : Nat) (st : BulkState) (j : Nat)
      (hj : j < rs.length) (e : Employee),
      (rs.map AttendanceRecordInput.employeeId).Nodup →
      mapLookup emap (rs.get ⟨j, hj⟩).employeeId = some e →
      hasPair st.store (rs.get ⟨j, hj⟩).employeeId date = false →
      mkSummary e (rs.get ⟨j, hj⟩) ∈ (processLoop emap date i rs st).processed := by
  intro rs
  induction rs with
  | nil => intro i st j hj; simp at hj
  | cons r rs ih =>
      intro i st j hj e hnd hm hp
      have hstep : processLoop emap date i (r :: rs) st =
          processLoop emap date (i + 1) rs (processRecord emap date i r st) := rfl
      cases j with
      | zero =>
          rw [hstep]
          apply processLoop_processed_mono
          have hm0 : mapLookup emap r.employeeId = some e := hm
          have hp0 : hasPair st.store r.employeeId date = false := hp
          simp [processRecord, hm0, hp0]
      | succ j =>
          rw [hstep]
          have hget : (r :: rs).get ⟨j + 1, hj⟩ = rs.get ⟨j, by simpa using hj⟩ := rfl
          rw [hget] at hm hp ⊢
          have hndtl : (rs.map AttendanceRecordInput.employeeId).Nodup :=
            (List.nodup_cons.mp hnd).2
          have hne : r.employeeId ≠ (rs.get ⟨j, by simpa using hj⟩).employeeId := by
            intro hEq
            have hmem : (rs.get ⟨j, by simpa using hj⟩).employeeId ∈
                rs.map AttendanceRecordInput.employeeId :=
              List.mem_map_of_mem _ (List.get_mem rs j (by simpa using hj))
            rw [← hEq] at hmem
            exact (List.nodup_cons.mp hnd).1 hmem
          apply ih (i + 1) (processRecord emap date i r st) j _ e hndtl hm
          rcases processRecord_store_cases emap date i r st with hcase | ⟨emp, _, _, hcase⟩
          · rw [hcase]
            exact hp
          · rw [hcase, hasPair_append, hp]
            have : hasPair [buildCommitted emp date r] (rs.get ⟨j, by simpa using hj⟩).employeeId date = false := by
              simp only [hasPair, List.any_cons, List.any_nil, Bool.or_false]
              have hb : ((buildCommitted emp date r).row.employeeId ==
                  (rs.get ⟨j, by simpa using hj⟩).employeeId) = false := by
                simpa [buildCommitted] using hne
              rw [hb, Bool.false_and]
            rw [this]
            rfl

/-- A database with no employee of the given id resolves nothing. -/
theorem lookupActive_eq_none_of_not_mem (db : List Employee) (x : Nat)
    (h : x ∉ db.map Employee.id) : lookupActive db x = none := by
  rw [lookupActive, List.find?_eq_none]
  intro e he hc
  rw [Bool.and_eq_true, beq_iff_eq] at hc
  apply h
  rw [← hc.2]
  exact List.mem_map_of_mem _ he

/-- A map with no employee of the given id resolves nothing. -/
theorem mapLookup_eq_none_of_not_mem (emap : List Employee) (x : Nat)
    (h : x ∉ emap.map Employee.id) : mapLookup emap x = none := by
  rw [mapLookup, List.find?_eq_none]
  intro e he hc
  rw [beq_iff_eq] at hc
  apply h
  rw [← hc]
  exact List.mem_map_of_mem _ he

/-- An unresolvable id never appears among the filtered employees. -/
theorem not_mem_filterEmployees_map (db : List Employee) (ids : List Nat)
    (x : Nat) (hmiss : lookupActive db x = none) :
    x ∉ (filterEmployees db ids).map Employee.id := by
  intro hmem
  obtain ⟨e, he, hEq⟩ := List.mem_map.mp hmem
  have hmf := List.mem_filter.mp he
  have hpred := hmf.2
  rw [Bool.and_eq_true] at hpred
  rw [lookupActive, List.find?_eq_none] at hmiss
  apply hmiss e hmf.1
  rw [Bool.and_eq_true, beq_iff_eq]
  exact ⟨hpred.1, hEq⟩

/-- Looking an id up in the `employeeMap` built from the filtered
`findMany` result is the same as resolving it against the database,
provided database ids are unique and the id occurs in the batch. -/
theorem mapLookup_filterEmployees (db : List Employee) (ids : List Nat)
    (x : Nat) (hdb : (db.map Employee.id).Nodup) (hx : x ∈ ids) :
    mapLookup (filterEmployees db ids) x = lookupActive db x := by
  induction db with
  | nil => rfl
  | cons e tl ih =>
      have hnd : (∀ y ∈ tl, ¬ y.id = e.id) ∧ (tl.map Employee.id).Nodup := by
        simpa using hdb
      have hfcons : filterEmployees (e :: tl) ids =
          if (e.isActive && ids.contains e.id) = true then
            e :: filterEmployees tl ids
          else filterEmployees tl ids := by
        rw [filterEmployees, List.filter_cons]
        rfl
      by_cases hid : e.id = x
      · have hxtl : x ∉ tl.map Employee.id := by
          intro hmem
          obtain ⟨y, hy, hEq⟩ := List.mem_map.mp hmem
          exact hnd.1 y hy (hEq.trans hid.symm)
        have hLnone : mapLookup (filterEmployees tl ids) x = none :=
          mapLookup_eq_none_of_not_mem _ _ (fun hmem => hxtl
            (List.Sublist.subset (List.Sublist.map _ (List.filter_sublist tl)) hmem))
        have hRnone : lookupActive tl x = none :=
          lookupActive_eq_none_of_not_mem _ _ hxtl
        by_cases hact : e.isActive
        · have hpred : (e.isActive && ids.contains e.id) = true := by
            rw [Bool.and_eq_true]
            refine ⟨hact, ?_⟩
            show List.elem e.id ids = true
            rw [List.elem_eq_mem]
            exact decide_eq_true (by rw [hid]; exact hx)
          rw [hfcons, if_pos hpred]
          rw [mapLookup, List.find?_cons_of_pos _ (by simpa using hid)]
          rw [lookupActive, List.find?_cons_of_pos _ (by
            rw [Bool.and_eq_true, beq_iff_eq]
            exact ⟨hact, hid⟩)]
        · have hpred : ¬ ((e.isActive && ids.contains e.id) = true) := by
            rw [Bool.and_eq_true]
            rintro ⟨hact2, h2⟩
            exact hact hact2
          rw [hfcons, if_neg hpred, hLnone]
          rw [lookupActive, List.find?_cons_of_neg _ (by
            rw [Bool.and_eq_true]
            rintro ⟨hact2, h2⟩
            exact hact hact2)]
          rw [← hRnone]
          rfl
      · have htail : mapLookup (filterEmployees tl ids) x = lookupActive tl x :=
          ih (by simpa using hnd.2)
        have hRstep : lookupActive (e :: tl) x = lookupActive tl x := by
          rw [lookupActive, List.find?_cons_of_neg _ (by
            rw [Bool.and_eq_true, beq_iff_eq]
            rintro ⟨hact2, hEq⟩
            exact hid hEq)]
          rfl
        rw [hRstep, ← htail]
        by_cases hkeep : (e.isActive && ids.contains e.id) = true
        · rw [hfcons, if_pos hkeep]
          rw [mapLookup, List.find?_cons_of_neg _ (by
            rw [beq_iff_eq]
            exact hid)]
          rfl
        · rw [hfcons, if_neg hkeep]

/-- When every batch id resolves to an active employee and the ids repeat
neither in the batch nor in the database, the `findMany` pre-check
succeeds: as many employees come back as ids were sent. -/
theorem filterEmployees_length_eq (db : List Employee) (ids : List Nat)
    (hdb : (db.map Employee.id).Nodup) (hids : ids.Nodup)
    (hres : ∀ x ∈ ids, (lookupActive db x).isSome = true) :
    (filterEmployees db ids).length = ids.length := by
  have hnodup : ((filterEmployees db ids).map Employee.id).Nodup :=
    List.Nodup.sublist (List.Sublist.map _ (List.filter_sublist db)) hdb
  have hsubset1 : (filterEmployees db ids).map Employee.id ⊆ ids := by
    intro y hy
    obtain ⟨e, he, hEq⟩ := List.mem_map.mp hy
    have hpred := (List.mem_filter.mp he).2
    rw [Bool.and_eq_true] at hpred
    have hc : List.elem e.id ids = true := hpred.2
    rw [List.elem_eq_mem] at hc
    rw [← hEq]
    exact of_decide_eq_true hc
  have hsubset2 : ids ⊆ (filterEmployees db ids).map Employee.id := by
    intro x hxm
    obtain ⟨e, he⟩ := Option.isSome_iff_exists.mp (hres x hxm)
    have hmem := List.mem_of_find?_eq_some he
    have hpred := List.find?_some he
    rw [Bool.and_eq_true, beq_iff_eq] at hpred
    have hef : e ∈ filterEmployees db ids := by
      rw [filterEmployees, List.mem_filter]
      refine ⟨hmem, ?_⟩
      rw [Bool.and_eq_true]
      refine ⟨hpred.1, ?_⟩
      show List.elem e.id ids = true
      rw [List.elem_eq_mem]
      exact decide_eq_true (by rw [hpred.2]; exact hxm)
    rw [← hpred.2]
    exact List.mem_map_of_mem _ hef
  have h1 := (List.subperm_of_subset hnodup hsubset1).length_le
  have h2 := (List.subperm_of_subset hids hsubset2).length_le
  rw [List.length_map] at h1 h2
  omega

/-- When some batch id resolves to no active employee, the `findMany`
pre-check fails: strictly fewer employees come back than ids were sent. -/
theorem filterEmployees_length_lt (db : List Employee) (ids : List Nat)
    (x : Nat) (hdb : (db.map Employee.id).Nodup) (hx : x ∈ ids)
    (hmiss : lookupActive db x = none) :
    (filterEmployees db ids).length < ids.length := by
  have hnodup : ((filterEmployees db ids).map Employee.id).Nodup :=
    List.Nodup.sublist (List.Sublist.map _ (List.filter_sublist db)) hdb
  have hxnot := not_mem_filterEmployees_map db ids x hmiss
  have hsubset : (filterEmployees db ids).map Employee.id ⊆ ids.erase x := by
    intro y hy
    obtain ⟨e, he, hEq⟩ := List.mem_map.mp hy
    have hpred := (List.mem_filter.mp he).2
    rw [Bool.and_eq_true] at hpred
    have hc : List.elem e.id ids = true := hpred.2
    rw [List.elem_eq_mem] at hc
    have hyids : y ∈ ids := by
      rw [← hEq]
      exact of_decide_eq_true hc
    have hyne : y ≠ x := by
      intro hEq2
      rw [hEq2] at hy
      exact hxnot hy
    exact (List.mem_erase_of_ne hyne).mpr hyids
  have h1 := (List.subperm_of_subset hnodup hsubset).length_le
  rw [List.length_map] at h1
  have h2 : (ids.erase x).length + 1 = ids.length := List.length_erase_add_one hx
  omega

/-- An unresolvable batch id is reported in the not-found list that the
pre-check computes. -/
theorem mem_notFound_list (db : List Employee) (ids : List Nat) (x : Nat)
    (hx : x ∈ ids) (hmiss : lookupActive db x = none) :
    x ∈ ids.filter
      (fun id => !((filterEmployees db ids).map Employee.id).contains id) := by
  rw [List.mem_filter]
  refine ⟨hx, ?_⟩
  rw [Bool.not_eq_true']
  show List.elem x ((filterEmployees db ids).map Employee.id) = false
  rw [List.elem_eq_mem]
  exact decide_eq_false (not_mem_filterEmployees_map db ids x hmiss)

/-- C1 counterexample: a valid batch of N = 2 records in which M = 1
record references the unknown employee id 1 does NOT yield N − M = 1
committed and 1 rejected; `bulkCreate` instead aborts the whole request
with a batch-level not-found outcome and commits 0 records. -/
theorem c1_counterexample :
    bulkCreate [empAna] [] dateJan [recAna, recBob] =
      BulkOutcome.employeesNotFound [1] ∧
    committedCount (bulkCreate [empAna] [] dateJan [recAna, recBob]) = 0 := by
  constructor
  · with_unfolding_all rfl
  · with_unfolding_all rfl

/-- C1 (amended): a structurally valid bulk submission in which at least
one record references an id with no active employee is rejected wholesale:
the outcome is the batch-level not-found abort, the offending id appears
in the reported missing list, and zero records are committed — the
remaining records are not committed either. -/
theorem c1_unresolvable_aborts_batch (db : List Employee)
    (store0 : List CommittedRecord) (date : String)
    (records : List AttendanceRecordInput)
    (hvalid : validBulk date records = true)
    (hdb : (db.map Employee.id).Nodup)
    (r : AttendanceRecordInput) (hr : r ∈ records)
    (hmiss : lookupActive db r.employeeId = none) :
    ∃ missing, bulkCreate db store0 date records =
        BulkOutcome.employeesNotFound missing ∧
      r.employeeId ∈ missing ∧
      committedCount (bulkCreate db store0 date records) = 0 := by
  have hx : r.employeeId ∈ records.map AttendanceRecordInput.employeeId :=
    List.mem_map_of_mem _ hr
  have hlt := filterEmployees_length_lt db
    (records.map AttendanceRecordInput.employeeId) r.employeeId hdb hx hmiss
  have heq : bulkCreate db store0 date records =
      BulkOutcome.employeesNotFound
        ((records.map AttendanceRecordInput.employeeId).filter
          (fun id => !((filterEmployees db
            (records.map AttendanceRecordInput.employeeId)).map
              Employee.id).contains id)) := by
    simp only [bulkCreate]
    rw [if_pos hvalid, if_pos (Nat.ne_of_lt hlt)]
  refine ⟨_, heq, ?_, ?_⟩
  · exact mem_notFound_list db _ r.employeeId hx hmiss
  · rw [heq]
    rfl

/-- Witness for C1 (amended): the two-record batch for employees 0 and 1
against a database holding only employee 0. -/
theorem c1_unresolvable_aborts_batch_witness :
    ∃ missing, bulkCreate [empAna] [] dateJan [recAna, recBob] =
        BulkOutcome.employeesNotFound missing ∧
      recBob.employeeId ∈ missing ∧
      committedCount (bulkCreate [empAna] [] dateJan [recAna, recBob]) = 0 :=
  c1_unresolvable_aborts_batch [empAna] [] dateJan [recAna, recBob]
    (by decide) (by decide) recBob (by decide)
    (by with_unfolding_all rfl)

/-- C5: in a structurally valid batch whose ids are pairwise distinct and
all resolve to active employees, a record whose (employeeId, date) pair
already has exactly one stored row is rejected with the
"Ya existe registro para esta fecha" error carrying its index and
employee, the stored row stays unique for that pair (the committed count
for the pair never exceeds one), and every other record of the batch
whose pair is not yet stored is committed. -/
theorem c5_duplicate_rejected (db : List Employee)
    (store0 : List CommittedRecord) (date : String)
    (records : List AttendanceRecordInput)
    (hvalid : validBulk date records = true)
    (hdb : (db.map Employee.id).Nodup)
    (hids : (records.map AttendanceRecordInput.employeeId).Nodup)
    (hres : ∀ r ∈ records, (lookupActive db r.employeeId).isSome = true)
    (j : Nat) (hj : j < records.length) (e : Employee)
    (he : lookupActive db (records.get ⟨j, hj⟩).employeeId = some e)
    (hdup : pairCount store0 (records.get ⟨j, hj⟩).employeeId date = 1) :
    ∃ store1 processed errors,
      bulkCreate db store0 date records = BulkOutcome.ok store1 processed errors ∧
      mkDupError j (records.get ⟨j, hj⟩) e ∈ errors ∧
      pairCount store1 (records.get ⟨j, hj⟩).employeeId date = 1 ∧
      (∀ (k : Nat) (hk : k < records.length) (f : Employee),
        lookupActive db (records.get ⟨k, hk⟩).employeeId = some f →
        pairCount store0 (records.get ⟨k, hk⟩).employeeId date = 0 →
        mkSummary f (records.get ⟨k, hk⟩) ∈ processed) := by
  have hres2 : ∀ x ∈ records.map AttendanceRecordInput.employeeId,
      (lookupActive db x).isSome = true := by
    intro x hxm
    obtain ⟨rr, hrr, hEq⟩ := List.mem_map.mp hxm
    rw [← hEq]
    exact hres rr hrr
  have hlen := filterEmployees_length_eq db
    (records.map AttendanceRecordInput.employeeId) hdb hids hres2
  have hbridge : ∀ (k : Nat) (hk : k < records.length),
      mapLookup (filterEmployees db (records.map AttendanceRecordInput.employeeId))
          (records.get ⟨k, hk⟩).employeeId =
        lookupActive db (records.get ⟨k, hk⟩).employeeId := by
    intro k hk
    exact mapLookup_filterEmployees db _ _ hdb
      (List.mem_map_of_mem _ (List.get_mem records k hk))
  have hok : bulkCreate db store0 date records =
      BulkOutcome.ok
        (processLoop (filterEmployees db (records.map AttendanceRecordInput.employeeId))
          date 0 records { store := store0, processed := [], errors := [] }).store
        (processLoop (filterEmployees db (records.map AttendanceRecordInput.employeeId))
          date 0 records { store := store0, processed := [], errors := [] }).processed
        (processLoop (filterEmployees db (records.map AttendanceRecordInput.employeeId))
          date 0 records { store := store0, processed := [], errors := [] }).errors := by
    simp only [bulkCreate]
    rw [if_pos hvalid, if_neg (fun h => h hlen)]
  refine ⟨_, _, _, hok, ?_, ?_, ?_⟩
  · have hm : mapLookup (filterEmployees db (records.map AttendanceRecordInput.employeeId))
        (records.get ⟨j, hj⟩).employeeId = some e := by
      rw [hbridge j hj]
      exact he
    have hp : hasPair store0 (records.get ⟨j, hj⟩).employeeId date = true := by
      rw [hasPair_eq_true_iff, hdup]
      omega
    have := processLoop_dup_error
      (filterEmployees db (records.map AttendanceRecordInput.employeeId)) date
      records 0 { store := store0, processed := [], errors := [] } j hj e hm hp
    simpa using this
  · exact processLoop_pairCount_one _ date records 0
      { store := store0, processed := [], errors := [] } _ hdup
  · intro k hk f hf hzero
    have hm : mapLookup (filterEmployees db (records.map AttendanceRecordInput.employeeId))
        (records.get ⟨k, hk⟩).employeeId = some f := by
      rw [hbridge k hk]
      exact hf
    exact processLoop_commits
      (filterEmployees db (records.map AttendanceRecordInput.employeeId)) date
      records 0 { store := store0, processed := [], errors := [] } k hk f hids hm
      (hasPair_eq_false_of_count_zero _ _ _ hzero)

/-- Witness for C5: a retry batch for employees 0 and 1 on a store already
holding employee 0's record for the date; employee 0 is rejected as a
duplicate, employee 1 commits. -/
theorem c5_duplicate_rejected_witness :
    ∃ store1 processed errors,
      bulkCreate [empAna, empBeto] storeAna dateJan [recAna, recBob] =
        BulkOutcome.ok store1 processed errors ∧
      mkDupError 0 ([recAna, recBob].get ⟨0, by decide⟩) empAna ∈ errors ∧
      pairCount store1 ([recAna, recBob].get ⟨0, by decide⟩).employeeId dateJan = 1 ∧
      (∀ (k : Nat) (hk : k < [recAna, recBob].length) (f : Employee),
        lookupActive [empAna, empBeto] ([recAna, recBob].get ⟨k, hk⟩).employeeId = some f →
        pairCount storeAna ([recAna, recBob].get ⟨k, hk⟩).employeeId dateJan = 0 →
        mkSummary f ([recAna, recBob].get ⟨k, hk⟩) ∈ processed) :=
  c5_duplicate_rejected [empAna, empBeto] storeAna dateJan [recAna, recBob]
    (by decide) (by decide) (by decide)
    (by decide)
    0 (by decide) empAna (by with_unfolding_all rfl)
    (by with_unfolding_all rfl)

/-- Witness for C3 (amended) at workedHours = 11, standardDailyHours = 8. -/
theorem c3_overtime_split_witness :
    ((11 : ℚ) ≤ 8 → calculateExtraHours 11 8 = zeroSplit) ∧
    ((8 : ℚ) < 11 → (11 : ℚ) - 8 ≤ 2 →
      calculateExtraHours 11 8 =
        { nightHours := 0, supplementaryHours := 11 - 8, extraordinaryHours := 0 }) ∧
    ((8 : ℚ) < 11 → 2 < (11 : ℚ) - 8 →
      calculateExtraHours 11 8 =
        { nightHours := 0, supplementaryHours := 2, extraordinaryHours := 11 - 8 - 2 }) ∧
    (calculateExtraHours 11 8).nightHours = 0 :=
  c3_overtime_split 11 8 (by norm_num)

end HojaVerde
